import Mathlib

/-!
Verification development for the trend-aggregation service.

The definitions below are a shallow embedding of the Python source:

* `analyze_trends` embeds `backend/trend_collector.py` (`analyze_trends`),
* `collect_news_api` embeds the item loop of
  `ImprovedTrendCollector.collect_news_api` in the same file,
* `HttpClient.get` and `async_get_multiple` embed `utils/http_client.py`,
* `background_cycle` embeds the per-cycle body of
  `api_server.background_collector`,
* `MemoryCache.get`/`MemoryCache.set`/`cachedCall` embed `utils/cache.py`.

Python `None` is modelled by `Option.none`; a dictionary field that can be
absent, present-but-null, or present-with-value is modelled by a doubly
nested `Option`.  Code paths that raise a `TypeError` at run time are
modelled with `Except String`.
-/

namespace Trend

/-- Python `str.lower()`, applied characterwise (`String.map` itself is
defined by well-founded recursion, so the characterwise form is used to keep
the embedding computable by the kernel). -/
def pyLower (s : String) : String := ⟨s.data.map Char.toLower⟩

/-- One raw observation, the dictionary built by the collectors.
`score` distinguishes an absent key (`none`), a key holding Python `None`
(`some none`) and an integer value (`some (some n)`), because
`analyze_trends` reads it with `trend.get('score', 50)` whose default fires
only when the key is absent. -/
structure RawTrend where
  keyword : String
  source : String
  score : Option (Option Int)
  url : Option String
  rank : Option Nat
  description : Option String
  deriving Repr, DecidableEq

/-- `trend.get('score', 50)`: the default `50` is used only when the
`score` key is absent; a stored `None` is returned as is. -/
def RawTrend.getScore (t : RawTrend) : Option Int :=
  match t.score with
  | none => some 50
  | some v => v

/-- Truthiness test `if trend.get('url'):` — an absent key, `None`, or the
empty string are all falsy. -/
def RawTrend.urlTruthy (t : RawTrend) : Option String :=
  match t.url with
  | some u => if u = "" then none else some u
  | none => none

/-- The per-keyword accumulator record created inside `analyze_trends`. -/
structure KeywordEntry where
  keyword : String
  score : Option Int
  sources : List String
  count : Nat
  urls : List String
  deriving Repr, DecidableEq

/-- Python `a += b` on the accumulated score: raises `TypeError` when either
operand is `None`. -/
def pyIntAdd : Option Int → Option Int → Except String (Option Int)
  | some a, some b => .ok (some (a + b))
  | _, _ => .error "TypeError: unsupported operand type for +"

/-- `set.add`: Python set insertion, modelled in insertion order. -/
def setAdd (s : List String) (x : String) : List String :=
  if x ∈ s then s else s ++ [x]

/-- `keyword_scores[keyword]['urls'].append(trend['url'])` guarded by the
truthiness of `trend.get('url')`. -/
def addUrl (e : KeywordEntry) (t : RawTrend) : KeywordEntry :=
  match t.urlTruthy with
  | some u => { e with urls := e.urls ++ [u] }
  | none => e

/-- The `else` branch of `analyze_trends`: a fresh accumulator for a
first-seen normalized keyword (original display form kept). -/
def newEntry (t : RawTrend) : KeywordEntry :=
  { keyword := t.keyword
    score := t.getScore
    sources := [t.source]
    count := 1
    urls := [] }

/-- The `if keyword in keyword_scores` branch of `analyze_trends`. -/
def updateEntry (e : KeywordEntry) (t : RawTrend) : Except String KeywordEntry := do
  let s ← pyIntAdd e.score t.getScore
  .ok { e with score := s, sources := setAdd e.sources t.source, count := e.count + 1 }

/-- One iteration of the `for trend in all_trends` loop: the insertion-order
dictionary `keyword_scores` is an association list keyed by the lowered
keyword `k`. -/
def updateMap (t : RawTrend) (k : String) :
    List (String × KeywordEntry) → Except String (List (String × KeywordEntry))
  | [] => .ok [(k, addUrl (newEntry t) t)]
  | (k₀, e) :: rest =>
    if k = k₀ then do
      let e' ← updateEntry e t
      .ok ((k₀, addUrl e' t) :: rest)
    else do
      let rest' ← updateMap t k rest
      .ok ((k₀, e) :: rest')

/-- The accumulation loop of `analyze_trends`: fold all raw trends into the
`keyword_scores` dictionary, keyed by `trend['keyword'].lower()`. -/
def buildScores (all_trends : List RawTrend) :
    Except String (List (String × KeywordEntry)) :=
  all_trends.foldlM (fun m t => updateMap t (pyLower t.keyword) m) []

/-- A keyword entry once the sort key is computable: `sorted` evaluates
`x['score'] * len(x['sources'])`, which raises `TypeError` when the
accumulated score is `None`. -/
structure Scored where
  keyword : String
  score : Int
  sources : List String
  deriving Repr, DecidableEq

/-- Extraction of the sortable view of an accumulator entry; fails exactly
when Python would raise computing the sort key. -/
def scoredOf (e : KeywordEntry) : Except String Scored :=
  match e.score with
  | some s => .ok ⟨e.keyword, s, e.sources⟩
  | none => .error "TypeError: NoneType in sort key"

/-- The sort key `x['score'] * len(x['sources'])`. -/
def orderKey (s : Scored) : Int := s.score * s.sources.length

/-- Stable descending insertion: an element is placed before the first
element whose key is not larger, so equal keys keep first-seen order,
matching Python `sorted(..., reverse=True)`. -/
def insertDesc (x : Scored) : List Scored → List Scored
  | [] => [x]
  | y :: ys => if orderKey y ≤ orderKey x then x :: y :: ys else y :: insertDesc x ys

/-- Stable descending sort by `orderKey`, matching Python
`sorted(values, key=lambda x: x['score'] * len(x['sources']), reverse=True)`. -/
def sortDesc : List Scored → List Scored
  | [] => []
  | x :: xs => insertDesc x (sortDesc xs)

/-- One entry of `hot_keywords` in the API format built at the end of
`analyze_trends`. -/
structure FusedKeyword where
  keyword : String
  score : Int
  sources : List String
  rank : Nat
  deriving Repr, DecidableEq

/-- The analysis result dictionary (timestamps omitted). -/
structure Analysis where
  hot_keywords : List FusedKeyword
  total_collected : Nat
  unique_keywords : Nat
  deriving Repr, DecidableEq

/-- Embedding of `analyze_trends` from `backend/trend_collector.py`:
accumulate per lowered keyword, sort by `score × |sources|` descending with
stable ties, keep the top 100, and assign ranks `1..`. -/
def analyze_trends (all_trends : List RawTrend) : Except String Analysis := do
  let keyword_scores ← buildScores all_trends
  let values ← keyword_scores.mapM (fun p => scoredOf p.2)
  let sorted_keywords := sortDesc values
  let top_keywords := sorted_keywords.take 100
  let formatted_trends := top_keywords.enum.map
    (fun p => FusedKeyword.mk p.2.keyword p.2.score p.2.sources (p.1 + 1))
  .ok ⟨formatted_trends, all_trends.length, keyword_scores.length⟩

/-! ### News RSS adapter (`ImprovedTrendCollector.collect_news_api`) -/

/-- One parsed `<item>` of the wire-news RSS feed.  Each field models the
corresponding child element: `none` when the element is missing, and
`some txt` when the element is present with text `txt` (itself `none` when
`ElementTree` reports the text as `None`). -/
structure NewsItem where
  title : Option (Option String)
  description : Option (Option String)
  link : Option (Option String)
  deriving Repr, DecidableEq

/-- The guard `if title_elem is not None and title_elem.text:` — produces
the title string exactly when the element exists and its text is truthy. -/
def NewsItem.titleTruthy (it : NewsItem) : Option String :=
  match it.title with
  | some (some t) => if t = "" then none else some t
  | _ => none

/-- `link_elem.text if link_elem is not None else ''` — a missing element
yields the empty string, a present element yields its text (possibly
`None`). -/
def NewsItem.urlVal (it : NewsItem) : Option String :=
  match it.link with
  | none => some ""
  | some txt => txt

/-- `desc_elem.text[:200] if desc_elem is not None and desc_elem.text else ''`
(slicing expressed on the character list to keep the kernel able to
evaluate it). -/
def NewsItem.descVal (it : NewsItem) : String :=
  match it.description with
  | some (some d) => if d = "" then "" else ⟨d.data.take 200⟩
  | _ => ""

/-- Python `str.strip()`: remove whitespace from both ends, in the
characterwise form. -/
def pyStrip (s : String) : String :=
  ⟨((s.data.dropWhile Char.isWhitespace).reverse.dropWhile Char.isWhitespace).reverse⟩

/-- Keyword extraction in `collect_news_api`:
`title.split('(')[0].strip()`, truncated to 30 characters with an
ellipsis appended. -/
def newsKeyword (title : String) : String :=
  let keyword := pyStrip ⟨title.data.takeWhile (fun c => c ≠ '(')⟩
  if 30 < keyword.data.length then String.mk (keyword.data.take 30) ++ "..." else keyword

/-- Embedding of the item loop of `collect_news_api`: the first 50 feed
items are enumerated, items without a truthy title are skipped (but still
consume their index), and each produced trend gets
`score = 80 - idx * 2`. -/
def collect_news_api (items : List NewsItem) : List RawTrend :=
  ((items.take 50).enum).filterMap (fun p =>
    match p.2.titleTruthy with
    | some title => some
        { keyword := newsKeyword title
          source := "news"
          score := some (some ((80 : Int) - (p.1 : Int) * 2))
          url := p.2.urlVal
          rank := none
          description := some p.2.descVal }
    | none => none)

/-! ### HTTP client (`utils/http_client.py`) -/

/-- The outcome of one `requests.get` attempt: either a response with a
status code and body, or a transport-level failure
(`ConnectionError`, timeout, ...). -/
inductive Outcome where
  | response (status : Nat) (body : String)
  | transportError
  deriving Repr, DecidableEq

/-- Whether the attempt raises `RequestException`: transport errors always
do, and `response.raise_for_status()` raises `HTTPError` for every status
of 400 and above — there is no status whitelist in the code. -/
def raiseWorthy : Outcome → Bool
  | .response st _ => 400 ≤ st
  | .transportError => true

/-- The observable result of `HttpClient.get`: a returned response, the
exception re-raised after the last attempt, or the implicit `None` return
when the retry loop body never runs (`max_retries = 0`). -/
inductive GetResult where
  | ok (status : Nat) (body : String)
  | raised
  | noneReturn
  deriving Repr, DecidableEq

/-- The retry loop `for attempt in range(self.max_retries)` of
`HttpClient.get`, parametrised by the outcome `schedule` of each attempt:
`attempt` is the current index and `rem + 1` the number of remaining
iterations.  Returns the result together with the number of attempts
performed. -/
def getFrom (schedule : Nat → Outcome) : Nat → Nat → GetResult × Nat
  | attempt, 0 => (.noneReturn, attempt)
  | attempt, rem + 1 =>
    match schedule attempt with
    | .response st body =>
      if 400 ≤ st then
        if 0 < rem then getFrom schedule (attempt + 1) rem else (.raised, attempt + 1)
      else (.ok st body, attempt + 1)
    | .transportError =>
      if 0 < rem then getFrom schedule (attempt + 1) rem else (.raised, attempt + 1)

/-- Embedding of `HttpClient.get`: run the retry loop from attempt 0 with
`max_retries` iterations available. -/
def HttpClient.get (max_retries : Nat) (schedule : Nat → Outcome) : GetResult × Nat :=
  getFrom schedule 0 max_retries

/-- Embedding of `HttpClient.async_get_multiple`: one task is created per
URL (in input order), but results are appended in the order
`asyncio.as_completed` yields finished tasks, which is the completion order
`completion` (a permutation of the task indices).  A task whose fetch fails
contributes `none` at its completion position. -/
def async_get_multiple (urls : List String) (fetch : String → Option String)
    (completion : List Nat) : List (Option String) :=
  completion.map (fun i => (urls.get? i).bind fetch)

/-! ### Background refresh cycle (`api_server.background_collector`) -/

/-- One topic entry of `topics_with_hooks` built in `background_collector`. -/
structure Topic where
  id : String
  topic : String
  keywords : List String
  hook_copies : List String
  deriving Repr, DecidableEq

/-- The global `trends_cache` store (bookmarks and timestamps omitted). -/
structure TrendsCache where
  hot_keywords : List FusedKeyword
  topics : List Topic
  deriving Repr, DecidableEq

/-- The `trends_update` event emitted through the socket on each cycle. -/
structure TrendsUpdate where
  hot_keywords : List FusedKeyword
  topics : List Topic
  deriving Repr, DecidableEq

/-- Result of one successful collection cycle: the updated cache, the
emitted event, and whether the topic clusterer was invoked. -/
structure CycleResult where
  cache : TrendsCache
  event : TrendsUpdate
  clusterer_invoked : Bool
  deriving Repr, DecidableEq

/-- Modelled from the spec: the keyword-cleanup helpers `normalize`,
`deduplicate` and `combine_similar_keywords` are referenced by
`background_collector` in `api_server.py` but are defined nowhere in the
repository; the spec only says the pipeline "normalizes them, deduplicates
across sources".  They are therefore modelled as one abstract cleanup
function `clean`; every claim about this cycle conditions only on the size
of its output. -/
def cleanupKeywords (clean : List String → List String)
    (keywords_for_clustering : List String) : List String :=
  clean keywords_for_clustering

/-- Embedding of one successful iteration of `background_collector` after
`analyze_trends` has produced `analysis`: truncate to 30 hot keywords,
clean the top-20 keyword strings, and run the clusterer only when an LLM
credential is configured and at least 5 keywords remain; the topics stored
in the cache are replaced only in that branch.  `cluster_topics` models
`cluster_topics_with_chatgpt` and `gen_hooks` models
`generate_hook_copies`. -/
def background_cycle (clean : List String → List String)
    (openai_api_key : Bool)
    (cluster_topics : List String → Nat → List (String × List String))
    (gen_hooks : String → List String)
    (cache : TrendsCache) (analysis : Analysis) : CycleResult :=
  let hot_keywords := analysis.hot_keywords.take 30
  let keywords_for_clustering := (hot_keywords.take 20).map (fun kw => kw.keyword)
  let keywords_final := cleanupKeywords clean keywords_for_clustering
  let invoked := openai_api_key && decide (5 ≤ keywords_final.length)
  let topics :=
    if invoked then
      (cluster_topics keywords_final (min 5 (keywords_final.length / 2))).enum.map
        (fun p => Topic.mk ("topic_" ++ toString (p.1 + 1)) p.2.1 p.2.2 (gen_hooks p.2.1))
    else cache.topics
  { cache := { hot_keywords := hot_keywords, topics := topics }
    event := { hot_keywords := hot_keywords.take 10, topics := topics.take 5 }
    clusterer_invoked := invoked }

/-! ### Cache layer (`utils/cache.py`) -/

/-- The record stored per key by `MemoryCache.set`.  `value` is an
`Option` because the cached Python value may itself be `None`. -/
structure CacheEntry (α : Type) where
  value : Option α
  expires_at : Nat
  created_at : Nat
  last_accessed : Nat
  deriving Repr, DecidableEq

/-- The in-memory cache: the `self.cache` dictionary in insertion order
plus the default TTL. -/
structure MemoryCache (α : Type) where
  cache : List (String × CacheEntry α)
  default_ttl : Nat
  deriving Repr, DecidableEq

/-- `self.cache[key]` lookup. -/
def lookupKey {α : Type} (key : String) :
    List (String × CacheEntry α) → Option (CacheEntry α)
  | [] => none
  | (k, e) :: rest => if k = key then some e else lookupKey key rest

/-- `del self.cache[key]`. -/
def removeKey {α : Type} (key : String) :
    List (String × CacheEntry α) → List (String × CacheEntry α)
  | [] => []
  | (k, e) :: rest => if k = key then rest else (k, e) :: removeKey key rest

/-- `item['last_accessed'] = time.time()` for the entry at `key`. -/
def touchKey {α : Type} (key : String) (now : Nat) :
    List (String × CacheEntry α) → List (String × CacheEntry α)
  | [] => []
  | (k, e) :: rest =>
    if k = key then (k, { e with last_accessed := now }) :: rest
    else (k, e) :: touchKey key now rest

/-- Dictionary assignment `self.cache[key] = {...}`: overwrite in place or
append a new binding. -/
def setKey {α : Type} (key : String) (entry : CacheEntry α) :
    List (String × CacheEntry α) → List (String × CacheEntry α)
  | [] => [(key, entry)]
  | (k, e) :: rest => if k = key then (k, entry) :: rest else (k, e) :: setKey key entry rest

/-- Embedding of `MemoryCache.get`: miss on an unknown key, deletion and
miss on an expired key (`time.time() > expires_at`), otherwise update
`last_accessed` and return the stored value.  The returned `Option α` is
the Python return value, so a stored `None` and a miss are both `none`. -/
def MemoryCache.get {α : Type} (c : MemoryCache α) (key : String) (now : Nat) :
    Option α × MemoryCache α :=
  match lookupKey key c.cache with
  | none => (none, c)
  | some item =>
    if item.expires_at < now then (none, { c with cache := removeKey key c.cache })
    else (item.value, { c with cache := touchKey key now c.cache })

/-- Embedding of `MemoryCache.set`: `ttl = none` models the Python default
argument `ttl=None`, which falls back to `default_ttl`. -/
def MemoryCache.set {α : Type} (c : MemoryCache α) (key : String) (value : Option α)
    (ttl : Option Nat) (now : Nat) : MemoryCache α :=
  let t := match ttl with | some t => t | none => c.default_ttl
  { c with cache := setKey key ⟨value, now + t, now, now⟩ c.cache }

/-- Result of one call of a function wrapped by the `cached` decorator. -/
structure CachedCallResult (α : Type) where
  result : Option α
  cache : MemoryCache α
  executed : Bool

/-- Embedding of the `wrapper` closure produced by the `cached` decorator,
at one fixed argument tuple whose fingerprint is `cache_key`: consult the
cache, treat any `None` (`is not None` test) as a miss, otherwise execute
`f`, store its result and return it.  `executed` records whether `f` ran. -/
def cachedCall {α : Type} (f : Unit → Option α) (cache_key : String) (ttl : Nat)
    (c : MemoryCache α) (now : Nat) : CachedCallResult α :=
  let gr := c.get cache_key now
  match gr.1 with
  | some v => ⟨some v, gr.2, false⟩
  | none =>
    let result := f ()
    ⟨result, gr.2.set cache_key result (some ttl) now, true⟩

/-! ## Theorems -/

theorem ok_bind {ε α β : Type} (a : α) (f : α → Except ε β) :
    (Except.ok a >>= f : Except ε β) = f a := rfl

theorem error_bind {ε α β : Type} (e : ε) (f : α → Except ε β) :
    (Except.error e >>= f : Except ε β) = Except.error e := rfl

theorem scoredOf_addUrl (e : KeywordEntry) (t : RawTrend) :
    scoredOf (addUrl e t) = scoredOf e := by
  unfold addUrl
  cases t.urlTruthy <;> rfl

/-- C1: on the two-adapter input (adapter A: ("AI", 50), adapter B:
("ai", 30) then ("ev", 40)), fusion yields exactly
[{keyword "AI", score 80, sources {A,B}, rank 1},
 {keyword "ev", score 40, sources {B}, rank 2}], the display form being the
first-seen raw keyword and the order being score × |sources| descending
with stable first-seen tie-break. -/
theorem C1_two_adapter_fusion :
    (analyze_trends
      [⟨"AI", "A", some (some 50), none, some 1, none⟩,
       ⟨"ai", "B", some (some 30), none, some 2, none⟩,
       ⟨"ev", "B", some (some 40), none, some 1, none⟩]).map Analysis.hot_keywords
    = .ok [⟨"AI", 80, ["A", "B"], 1⟩, ⟨"ev", 40, ["B"], 2⟩] := by rfl

/-- C2 counterexample: aggregating the single RawTrend whose `score` key is
present but null does NOT yield a fused score of 50 — `trend.get('score', 50)`
returns the stored `None`, and `analyze_trends` raises a `TypeError`
computing the sort key, so no FusedKeyword is produced at all. -/
theorem C2_null_score_counterexample :
    analyze_trends [⟨"btc", "C", some none, none, none, none⟩]
        = .error "TypeError: NoneType in sort key"
    ∧ (analyze_trends [⟨"btc", "C", some none, none, none, none⟩]).map
        Analysis.hot_keywords ≠ .ok [⟨"btc", 50, ["C"], 1⟩] := by
  constructor
  · rfl
  · intro hcontra
    exact Except.noConfusion hcontra

/-- C2 amended: the flat contribution of 50 applies exactly to a RawTrend
whose `score` field is ABSENT (the `.get('score', 50)` default), not to an
explicit null; aggregating the single scoreless input
[{kw:"btc", src:"C"}] yields a FusedKeyword "btc" with fused score 50. -/
theorem C2_absent_score_contributes_50 (t : RawTrend) (h : t.score = none) :
    (analyze_trends [t]).map Analysis.hot_keywords
      = .ok [⟨t.keyword, 50, [t.source], 1⟩] := by
  have hs : scoredOf (addUrl (newEntry t) t) = .ok ⟨t.keyword, 50, [t.source]⟩ := by
    rw [scoredOf_addUrl]
    simp [newEntry, scoredOf, RawTrend.getScore, h]
  simp [analyze_trends, buildScores, List.foldlM, updateMap, List.mapM, List.mapM.loop,
    hs, ok_bind, sortDesc, insertDesc, List.enum, List.enumFrom, Except.map]

theorem C2_absent_score_witness :
    (analyze_trends [⟨"btc", "C", none, none, none, none⟩]).map Analysis.hot_keywords
      = .ok [⟨"btc", 50, ["C"], 1⟩] :=
  C2_absent_score_contributes_50 ⟨"btc", "C", none, none, none, none⟩ rfl

theorem addUrl_keyword (e : KeywordEntry) (t : RawTrend) :
    (addUrl e t).keyword = e.keyword := by
  unfold addUrl
  cases t.urlTruthy <;> rfl

theorem updateEntry_keyword {e e' : KeywordEntry} {t : RawTrend}
    (h : updateEntry e t = .ok e') : e'.keyword = e.keyword := by
  unfold updateEntry at h
  cases hp : pyIntAdd e.score t.getScore with
  | error err => rw [hp, error_bind] at h; exact absurd h (by simp)
  | ok s => rw [hp, ok_bind] at h; cases h; rfl

theorem scoredOf_keyword {e : KeywordEntry} {s : Scored}
    (h : scoredOf e = .ok s) : s.keyword = e.keyword := by
  unfold scoredOf at h
  cases he : e.score with
  | none => rw [he] at h; exact absurd h (by simp)
  | some v => rw [he] at h; cases h; rfl

/-- C3 counterexample: two RawTrends whose keywords differ only in internal
whitespace ("a b" vs "a  b") are NOT fused: `analyze_trends` keys the
accumulator by `trend['keyword'].lower()` alone, with no whitespace
stripping or collapsing, so the output has two FusedKeywords, not one. -/
theorem C3_whitespace_counterexample :
    (analyze_trends [⟨"a b", "A", some (some 10), none, none, none⟩,
                     ⟨"a  b", "B", some (some 10), none, none, none⟩]).map
        (fun a => a.hot_keywords.length) = .ok 2
    ∧ (analyze_trends [⟨"a b", "A", some (some 10), none, none, none⟩,
                     ⟨"a  b", "B", some (some 10), none, none, none⟩]).map
        (fun a => a.hot_keywords.length) ≠ .ok 1 := by
  have hval : (analyze_trends [⟨"a b", "A", some (some 10), none, none, none⟩,
                     ⟨"a  b", "B", some (some 10), none, none, none⟩]).map
        (fun a => a.hot_keywords.length) = .ok 2 := by rfl
  refine ⟨hval, fun hc => ?_⟩
  rw [hval] at hc
  exact absurd (Except.ok.inj hc) (by decide)

/-- C3 amended: keyword equality in the Aggregator is decided by the
lowercased raw keyword only (no whitespace handling): any two RawTrends
whose keywords agree after `.lower()` are fused into a single FusedKeyword
whenever the aggregation succeeds, and its display form is the first-seen
raw keyword. -/
theorem C3_case_fold_fuses (t₁ t₂ : RawTrend)
    (h : pyLower t₁.keyword = pyLower t₂.keyword)
    (a : Analysis) (ha : analyze_trends [t₁, t₂] = .ok a) :
    a.hot_keywords.length = 1 ∧ ∀ fk ∈ a.hot_keywords, fk.keyword = t₁.keyword := by
  have hkey : pyLower t₂.keyword = pyLower t₁.keyword := h.symm
  cases hue : updateEntry (addUrl (newEntry t₁) t₁) t₂ with
  | error err =>
    have hform : analyze_trends [t₁, t₂] = .error err := by
      simp [analyze_trends, buildScores, List.foldlM, updateMap, hkey, hue,
        ok_bind, error_bind]
    rw [hform] at ha
    exact absurd ha (by simp)
  | ok e' =>
    cases hsc : scoredOf e' with
    | error err =>
      have hform : analyze_trends [t₁, t₂] = .error err := by
        simp [analyze_trends, buildScores, List.foldlM, updateMap, hkey, hue,
          List.mapM, List.mapM.loop, scoredOf_addUrl, hsc, ok_bind, error_bind]
      rw [hform] at ha
      exact absurd ha (by simp)
    | ok s =>
      have hform : analyze_trends [t₁, t₂]
          = .ok ⟨[⟨s.keyword, s.score, s.sources, 1⟩], 2, 1⟩ := by
        simp [analyze_trends, buildScores, List.foldlM, updateMap, hkey, hue,
          List.mapM, List.mapM.loop, scoredOf_addUrl, hsc, ok_bind, error_bind,
          sortDesc, insertDesc, List.enum, List.enumFrom]
      rw [hform] at ha
      cases ha
      refine ⟨rfl, fun fk hfk => ?_⟩
      have hfk1 : fk = ⟨s.keyword, s.score, s.sources, 1⟩ := by
        simpa using hfk
      rw [hfk1]
      show s.keyword = t₁.keyword
      rw [scoredOf_keyword hsc, updateEntry_keyword hue,
        addUrl_keyword (newEntry t₁) t₁]
      rfl

theorem C3_case_fold_witness :
    ((analyze_trends [⟨"AI", "A", some (some 1), none, none, none⟩,
                      ⟨"ai", "B", some (some 2), none, none, none⟩]).map
        (fun a => a.hot_keywords.length)) = .ok 1 := by
  have h := C3_case_fold_fuses
    ⟨"AI", "A", some (some 1), none, none, none⟩
    ⟨"ai", "B", some (some 2), none, none, none⟩
    (by rfl) ⟨[⟨"AI", 3, ["A", "B"], 1⟩], 2, 1⟩ (by rfl)
  exact congrArg Except.ok h.1

/-- C4: whenever `analyze_trends` succeeds, the fused list carries rank
`i + 1` at every index `i` (ranks start at 1, strictly increasing, no
gaps) and is capped at 100 entries; the same holds for the 30-entry
truncation `hot_keywords[:30]` that `background_collector` publishes. -/
theorem C4_snapshot_ranks (trends : List RawTrend) (a : Analysis)
    (ha : analyze_trends trends = .ok a) :
    (∀ i (h : i < a.hot_keywords.length), (a.hot_keywords.get ⟨i, h⟩).rank = i + 1)
    ∧ a.hot_keywords.length ≤ 100
    ∧ (∀ i (h : i < (a.hot_keywords.take 30).length),
        ((a.hot_keywords.take 30).get ⟨i, h⟩).rank = i + 1)
    ∧ (a.hot_keywords.take 30).length ≤ 30 := by
  unfold analyze_trends at ha
  cases hb : buildScores trends with
  | error err =>
    rw [hb, error_bind] at ha
    exact absurd ha (by simp)
  | ok ks =>
    simp only [hb, ok_bind] at ha
    cases hm : ks.mapM (fun p => scoredOf p.2) with
    | error err =>
      rw [hm, error_bind] at ha
      exact absurd ha (by simp)
    | ok values =>
      simp only [hm, ok_bind] at ha
      cases ha
      refine ⟨?_, ?_, ?_, ?_⟩
      · intro i h
        simp [List.get_eq_getElem, List.getElem_map, List.getElem_enum]
      · rw [List.length_map, List.enum_length, List.length_take]
        exact min_le_left _ _
      · intro i h
        rw [List.get_eq_getElem, List.getElem_take]
        simp [List.getElem_map, List.getElem_enum]
      · rw [List.length_take]
        exact min_le_left _ _

theorem C4_witness :
    (⟨[⟨"x", 5, ["S"], 1⟩], 1, 1⟩ : Analysis).hot_keywords.length ≤ 100 :=
  (C4_snapshot_ranks [⟨"x", "S", some (some 5), none, none, none⟩]
    ⟨[⟨"x", 5, ["S"], 1⟩], 1, 1⟩ (by rfl)).2.1

/-- C5: fusion is a deterministic function of the raw trend list — equal
inputs give equal `analyze_trends` outputs (keywords, scores, ranks and
their order).  In this embedding the accumulation dictionary is
insertion-ordered and the sort is the stable descending sort, both
deterministic, so the result depends on nothing but the input list. -/
theorem C5_analyze_trends_deterministic (l₁ l₂ : List RawTrend) (h : l₁ = l₂) :
    analyze_trends l₁ = analyze_trends l₂ := by rw [h]

theorem C5_witness :
    analyze_trends [⟨"AI", "A", some (some 50), none, some 1, none⟩]
      = analyze_trends [⟨"AI", "A", some (some 50), none, some 1, none⟩] :=
  C5_analyze_trends_deterministic _ _ rfl

/-- C6 counterexample: on a schedule that answers HTTP 404 to every
attempt, `HttpClient.get` with the default `max_retries = 3` performs 3
attempts — not the single attempt the claim requires — because
`raise_for_status()` turns every status ≥ 400 into a `RequestException`
and the `except` clause retries on all of them; and when a 404 is followed
by a 200, the second attempt's response is returned instead of the first
failure being surfaced. -/
theorem C6_404_retried_counterexample :
    HttpClient.get 3 (fun _ => .response 404 "not found") = (.raised, 3)
    ∧ (HttpClient.get 3 (fun _ => .response 404 "not found")).2 ≠ 1
    ∧ HttpClient.get 3
        (fun n => if n = 0 then .response 404 "not found" else .response 200 "ok")
        = (.ok 200 "ok", 2) := by
  refine ⟨rfl, fun hc => ?_, rfl⟩
  rw [show (HttpClient.get 3 (fun _ => Outcome.response 404 "not found")).2 = 3
    from rfl] at hc
  exact absurd hc (by decide)

theorem getFrom_all_raise (schedule : Nat → Outcome) :
    ∀ rem attempt, 0 < rem →
      (∀ i, attempt ≤ i → i < attempt + rem → raiseWorthy (schedule i) = true) →
      getFrom schedule attempt rem = (.raised, attempt + rem) := by
  intro rem
  induction rem with
  | zero => intro attempt h0 _; exact absurd h0 (by decide)
  | succ r ih =>
    intro attempt _ hall
    have hcur : raiseWorthy (schedule attempt) = true :=
      hall attempt le_rfl (by omega)
    unfold getFrom
    split
    · next st body heq =>
      rw [heq] at hcur
      simp only [raiseWorthy] at hcur
      rw [if_pos (of_decide_eq_true hcur)]
      by_cases hr : 0 < r
      · rw [if_pos hr, ih (attempt + 1) hr (fun i h1 h2 => hall i (by omega) (by omega))]
        rw [show attempt + 1 + r = attempt + (r + 1) by omega]
      · rw [if_neg hr]
        have hr0 : r = 0 := by omega
        subst hr0
        rfl
    · next heq =>
      by_cases hr : 0 < r
      · rw [if_pos hr, ih (attempt + 1) hr (fun i h1 h2 => hall i (by omega) (by omega))]
        rw [show attempt + 1 + r = attempt + (r + 1) by omega]
      · rw [if_neg hr]
        have hr0 : r = 0 := by omega
        subst hr0
        rfl

theorem getFrom_first_success (schedule : Nat → Outcome) :
    ∀ k rem attempt, k < rem →
      (∀ i, attempt ≤ i → i < attempt + k → raiseWorthy (schedule i) = true) →
      ∀ st body, schedule (attempt + k) = .response st body → st < 400 →
      getFrom schedule attempt rem = (.ok st body, attempt + k + 1) := by
  intro k
  induction k with
  | zero =>
    intro rem attempt hk _ st body hs hst
    obtain ⟨r, rfl⟩ : ∃ r, rem = r + 1 := ⟨rem - 1, by omega⟩
    rw [Nat.add_zero] at hs
    unfold getFrom
    split
    · next st0 body0 heq =>
      rw [hs] at heq
      cases heq
      rw [if_neg (by omega)]
    · next heq =>
      rw [hs] at heq
      exact absurd heq (by simp)
  | succ kk ih =>
    intro rem attempt hk hall st body hs hst
    obtain ⟨r, rfl⟩ : ∃ r, rem = r + 1 := ⟨rem - 1, by omega⟩
    have hcur : raiseWorthy (schedule attempt) = true :=
      hall attempt le_rfl (by omega)
    have hrec := ih r (attempt + 1) (by omega)
      (fun i h1 h2 => hall i (by omega) (by omega)) st body
      (by rw [show attempt + 1 + kk = attempt + (kk + 1) by omega]; exact hs) hst
    unfold getFrom
    split
    · next st0 body0 heq =>
      rw [heq] at hcur
      simp only [raiseWorthy] at hcur
      rw [if_pos (of_decide_eq_true hcur), if_pos (show 0 < r by omega), hrec]
      rw [show attempt + 1 + kk = attempt + (kk + 1) by omega]
    · next heq =>
      rw [if_pos (show 0 < r by omega), hrec]
      rw [show attempt + 1 + kk = attempt + (kk + 1) by omega]

/-- C6 amended: `HttpClient.get` retries on every `RequestException` — any
transport error and any HTTP error status (≥ 400), 404 included; there is
no retry whitelist {408, 429, 500, 502, 503, 504}.  When every attempt
fails it performs exactly `max_retries` attempts and then re-raises; when
some attempt returns a status < 400 after raise-worthy attempts, that
response is returned at attempt `k + 1`. -/
theorem C6_retry_on_any_error (max_retries k : Nat) (schedule : Nat → Outcome) :
    ((∀ i, i < max_retries → raiseWorthy (schedule i) = true) → 0 < max_retries →
      HttpClient.get max_retries schedule = (.raised, max_retries))
    ∧ (k < max_retries →
        (∀ i, i < k → raiseWorthy (schedule i) = true) →
        ∀ st body, schedule k = .response st body → st < 400 →
        HttpClient.get max_retries schedule = (.ok st body, k + 1)) := by
  constructor
  · intro hall h0
    have h := getFrom_all_raise schedule max_retries 0 h0
      (fun i h1 h2 => hall i (by omega))
    simpa [HttpClient.get] using h
  · intro hk hall st body hs hst
    have h := getFrom_first_success schedule k max_retries 0 hk
      (fun i h1 h2 => hall i (by omega)) st body (by simpa using hs) hst
    simpa [HttpClient.get] using h

theorem C6_retry_witness :
    HttpClient.get 3
        (fun n => if n = 0 then Outcome.response 404 "not found" else Outcome.response 200 "ok")
      = (.ok 200 "ok", 2) :=
  (C6_retry_on_any_error 3 1
      (fun n => if n = 0 then Outcome.response 404 "not found" else Outcome.response 200 "ok")).2
    (by decide)
    (fun i hi => by
      have hi0 : i = 0 := by omega
      subst hi0
      rfl)
    200 "ok" rfl (by decide)

/-- C7 counterexample: `async_get_multiple` appends results in the order
`asyncio.as_completed` yields them.  With two URLs whose requests complete
in reverse order, position 0 of the output holds the result of `urls[1]`,
not of `urls[0]` — the claimed input-order alignment fails. -/
theorem C7_completion_order_counterexample :
    async_get_multiple ["u0", "u1"]
        (fun u => if u = "u0" then some "r0" else some "r1") [1, 0]
      = [some "r1", some "r0"]
    ∧ (async_get_multiple ["u0", "u1"]
        (fun u => if u = "u0" then some "r0" else some "r1") [1, 0]).get? 0
      ≠ some ((["u0", "u1"].get? 0).bind
          (fun u => if u = "u0" then some "r0" else some "r1")) := by
  refine ⟨rfl, fun hc => ?_⟩
  rw [show (async_get_multiple ["u0", "u1"]
        (fun u => if u = "u0" then some "r0" else some "r1") [1, 0]).get? 0
      = some (some "r1") from rfl] at hc
  rw [show some (((["u0", "u1"].get? 0)).bind
        (fun u => if u = "u0" then some "r0" else some "r1"))
      = some (some "r0") from rfl] at hc
  exact absurd hc (by decide)

/-- C7 amended: `async_get_multiple` returns exactly one entry per input
URL, but in completion order: the j-th output is the result (or `none` on
failure) of the task that finished j-th; the output aligns with the input
order only when the completion order is the identity. -/
theorem C7_completion_order (urls : List String) (fetch : String → Option String)
    (completion : List Nat)
    (hperm : List.Perm completion (List.range urls.length)) :
    (async_get_multiple urls fetch completion).length = urls.length
    ∧ ∀ j, (async_get_multiple urls fetch completion).get? j
        = (completion.get? j).map (fun i => (urls.get? i).bind fetch) := by
  constructor
  · rw [async_get_multiple, List.length_map, hperm.length_eq, List.length_range]
  · intro j
    rw [async_get_multiple, List.get?_eq_getElem?, List.getElem?_map,
      List.get?_eq_getElem?]

theorem C7_witness :
    (async_get_multiple ["a"] (fun _ => some "r") [0]).length = 1 :=
  (C7_completion_order ["a"] (fun _ => some "r") [0] (by decide)).1

/-- C8 counterexample: the wire-news RSS adapter computes
`score = 80 - idx * 2` with NO lower clamp — on a 42-item feed the item at
0-based position 41 receives score −2, which differs from
`max(80 − 2·41, 0) = 0` and is negative. -/
theorem C8_negative_score_counterexample :
    ((collect_news_api
        (List.replicate 42 ⟨some (some "news"), none, none⟩)).get? 41).map
        RawTrend.score = some (some (some (-2)))
    ∧ (-2 : Int) ≠ max ((80 : Int) - 2 * 41) 0
    ∧ ¬(0 ≤ (-2 : Int)) := by
  refine ⟨rfl, by decide, by decide⟩

/-- C8 amended: every RawTrend produced by the news adapter comes from a
feed position `idx < 50` and carries score `80 − 2·idx` exactly — an
integer with no `max(·, 0)` clamp, hence negative for `idx ≥ 41`. -/
theorem C8_news_score_formula (items : List NewsItem) (t : RawTrend)
    (ht : t ∈ collect_news_api items) :
    ∃ idx it, idx < 50 ∧ (items.take 50).get? idx = some it
      ∧ t.score = some (some ((80 : Int) - (idx : Int) * 2)) := by
  rw [collect_news_api] at ht
  obtain ⟨⟨idx, it⟩, hmem, hf⟩ := List.mem_filterMap.mp ht
  have hget : (items.take 50)[idx]? = some it := List.mem_enum_iff_getElem?.mp hmem
  have hlt : idx < 50 := by
    have h1 : idx < (items.take 50).length := (List.getElem?_eq_some.mp hget).1
    rw [List.length_take] at h1
    omega
  refine ⟨idx, it, hlt, by rw [List.get?_eq_getElem?]; exact hget, ?_⟩
  cases htt : it.titleTruthy with
  | none => rw [htt] at hf; exact absurd hf (by simp)
  | some title =>
    rw [htt] at hf
    cases hf
    rfl

theorem C8_witness :
    ∃ idx it, idx < 50
      ∧ ((List.replicate 42 (⟨some (some "news"), none, none⟩ : NewsItem)).take 50).get? idx
          = some it
      ∧ (⟨"news", "news", some (some 80), some "", none, some ""⟩ : RawTrend).score
          = some (some ((80 : Int) - (idx : Int) * 2)) :=
  C8_news_score_formula (List.replicate 42 ⟨some (some "news"), none, none⟩)
    ⟨"news", "news", some (some 80), some "", none, some ""⟩ (by decide)

/-- C9 counterexample: when the clustering precondition fails (here: no
LLM credential) the clusterer is indeed not invoked, but the published
snapshot does NOT have an empty topics list — `trends_cache["topics"]` is
only assigned inside the guarded branch, so the previous cycle's topics
are retained in both the cache and the emitted event. -/
theorem C9_stale_topics_counterexample :
    (background_cycle id false (fun _ _ => []) (fun _ => [])
        ⟨[], [⟨"topic_1", "T", ["k"], ["h"]⟩]⟩ ⟨[], 0, 0⟩).clusterer_invoked = false
    ∧ (background_cycle id false (fun _ _ => []) (fun _ => [])
        ⟨[], [⟨"topic_1", "T", ["k"], ["h"]⟩]⟩ ⟨[], 0, 0⟩).cache.topics ≠ []
    ∧ (background_cycle id false (fun _ _ => []) (fun _ => [])
        ⟨[], [⟨"topic_1", "T", ["k"], ["h"]⟩]⟩ ⟨[], 0, 0⟩).event.topics ≠ [] := by
  refine ⟨rfl, by decide, by decide⟩

/-- C9 amended: when the clustering precondition fails (no LLM credential,
or fewer than 5 keywords after cleanup) the Topic Clusterer is not
invoked, and the topics list of the published snapshot RETAINS its
previous value (it is empty only as long as no earlier cycle ever
clustered); the event carries the first 5 of those retained topics. -/
theorem C9_precondition_gates_clusterer (clean : List String → List String)
    (key : Bool) (cluster_topics : List String → Nat → List (String × List String))
    (gen_hooks : String → List String) (cache : TrendsCache) (analysis : Analysis)
    (h : ¬(key = true ∧ 5 ≤ (cleanupKeywords clean
        (((analysis.hot_keywords.take 30).take 20).map (fun kw => kw.keyword))).length)) :
    (background_cycle clean key cluster_topics gen_hooks cache analysis).clusterer_invoked
        = false
    ∧ (background_cycle clean key cluster_topics gen_hooks cache analysis).cache.topics
        = cache.topics
    ∧ (background_cycle clean key cluster_topics gen_hooks cache analysis).event.topics
        = cache.topics.take 5 := by
  cases key with
  | false => simp [background_cycle]
  | true =>
    have hlen : ¬(5 ≤ (cleanupKeywords clean
        (((analysis.hot_keywords.take 30).take 20).map (fun kw => kw.keyword))).length) := by
      intro hc
      exact h ⟨rfl, hc⟩
    have hne : ¬((true && decide (5 ≤ (cleanupKeywords clean
        (((analysis.hot_keywords.take 30).take 20).map (fun kw => kw.keyword))).length)) = true) := by
      rw [Bool.true_and]
      intro hc
      exact hlen (of_decide_eq_true hc)
    refine ⟨?_, ?_, ?_⟩ <;> simp only [background_cycle]
    · rw [Bool.true_and]
      exact decide_eq_false hlen
    · rw [if_neg hne]
    · rw [if_neg hne]

theorem C9_witness :
    (background_cycle id false (fun _ _ => []) (fun _ => [])
        ⟨[], []⟩ ⟨[], 0, 0⟩).clusterer_invoked = false :=
  (C9_precondition_gates_clusterer id false (fun _ _ => []) (fun _ => [])
    ⟨[], []⟩ ⟨[], 0, 0⟩ (by simp)).1

theorem lookupKey_setKey {α : Type} (key : String) (e : CacheEntry α) :
    ∀ l, lookupKey key (setKey key e l) = some e := by
  intro l
  induction l with
  | nil => simp [setKey, lookupKey]
  | cons p rest ih =>
    obtain ⟨k, e₀⟩ := p
    by_cases hk : k = key
    · simp [setKey, lookupKey, hk]
    · simp [setKey, lookupKey, hk, ih]

/-- C10: when the wrapped function returns `None`, the `cached` wrapper
re-executes it on every call, even while the stored entry's TTL has not
elapsed: the wrapper stores the `None` result, but `MemoryCache.get`
returns the stored value directly so a stored `None` is indistinguishable
from a miss, and the wrapper's `is not None` test then re-runs the
function. -/
theorem C10_none_never_cached {α : Type} (f : Unit → Option α) (key : String)
    (ttl : Nat) (c : MemoryCache α) (now : Nat)
    (hf : f () = none) (hmiss : (c.get key now).1 = none) :
    (cachedCall f key ttl c now).executed = true
    ∧ (cachedCall f key ttl c now).result = none
    ∧ (∀ later, (((cachedCall f key ttl c now).cache).get key later).1 = none)
    ∧ (∀ later,
        (cachedCall f key ttl (cachedCall f key ttl c now).cache later).executed = true) := by
  have hcc : cachedCall f key ttl c now
      = ⟨none, (c.get key now).2.set key none (some ttl) now, true⟩ := by
    simp [cachedCall, hmiss, hf]
  have hget : ∀ later,
      (((c.get key now).2.set key none (some ttl) now).get key later).1 = none := by
    intro later
    unfold MemoryCache.get MemoryCache.set
    simp only [lookupKey_setKey]
    split <;> rfl
  refine ⟨by rw [hcc], by rw [hcc], ?_, ?_⟩
  · intro later
    rw [hcc]
    exact hget later
  · intro later
    rw [hcc]
    simp only [cachedCall]
    rw [hget later]

theorem C10_witness :
    (cachedCall (fun _ => (none : Option Nat)) "k" 300 ⟨[], 300⟩ 0).executed = true :=
  (C10_none_never_cached (fun _ => (none : Option Nat)) "k" 300 ⟨[], 300⟩ 0 rfl rfl).1

end Trend
